import Mathlib

/-!
Verification of the COBS (compact bit-sliced signature index) repository
against its natural-language specification.

Bytes are modelled as natural numbers (ASCII codes: A = 65, C = 67,
G = 71, T = 84).  A k-mer window is a list of bytes.  Functions are
shallow embeddings of the C++ source; definitions whose C++ source is
not part of the repository snapshot are modelled from the specification
and marked as such in their doc comments.
-/

/-! ### Byte maps (src/src/cobs.cpp, print_basepair_map) -/

/-- Embedding of the 256-entry table built by `print_basepair_map`
(src/src/cobs.cpp lines 590-604): `memset 0` followed by the four
assignments `A -> T`, `C -> G`, `G -> C`, `T -> A`.  Every byte other
than the four bases keeps the `memset` value 0. -/
def basepair_map (c : Nat) : Nat :=
  if c = 65 then 84
  else if c = 67 then 71
  else if c = 71 then 67
  else if c = 84 then 65
  else 0

/-- Modelled from the spec: the reverse-complement byte mapping as the
specification describes it ("Reverse-complement maps A-T, C-G byte-wise;
other bytes map to themselves").  Used to state what the spec claims,
to be compared against the code's `basepair_map`. -/
def spec_complement (c : Nat) : Nat :=
  if c = 65 then 84
  else if c = 84 then 65
  else if c = 67 then 71
  else if c = 71 then 67
  else c

/-- Modelled from the spec: reverse complement of a window, per the
specification's words. -/
def spec_revcomp (w : List Nat) : List Nat :=
  (w.map spec_complement).reverse

/-- Lexicographic comparison of byte windows (bytes compare by raw
value), used to state the specification's canonical form. -/
def lexLe : List Nat → List Nat → Bool
  | [], _ => true
  | _ :: _, [] => false
  | a :: as, b :: bs =>
    if a < b then true
    else if a = b then lexLe as bs
    else false

/-- Modelled from the spec: the canonical form of a window, "the
lexicographic minimum of the window and its reverse complement". -/
def spec_canonical (w : List Nat) : List Nat :=
  if lexLe w (spec_revcomp w) then w else spec_revcomp w

/-! ### normalize_kmer (src/isi/util/query.cpp lines 32-48)

The C++ function receives a pointer `query_8` to the k-byte window and a
scratch buffer `kmer_raw_8`.  We model the readable memory after
`query_8` as a byte list `q` (the window is `q.take k`; the function
also reads the byte at offset `k`).  `nkScan` is the two-pointer loop:
it is entered with `counter = 0` and runs while
`q[counter] = q[k - counter]` and `counter < k / 2`; the fuel argument
is `k / 2 - counter`, so fuel 0 means the counter bound is reached. -/

/-- The two-pointer scan loop of `normalize_kmer`: starting from counter
`c` with `fuel = k / 2 - c` steps remaining, advance while the byte at
offset `c` equals the byte at offset `k - c` (note the mirror offset is
`k - c`, not `k - 1 - c`). -/
def nkScan (q : List Nat) (k : Nat) : Nat → Nat → Nat
  | c, 0 => c
  | c, fuel + 1 =>
    if q.getD c 0 = q.getD (k - c) 0 then nkScan q k (c + 1) fuel else c

/-- Embedding of `isi::query::normalize_kmer` (src/isi/util/query.cpp
lines 32-48).  `q` is the byte sequence starting at the query pointer
(at least `k + 1` bytes are readable); the result is the k-byte window
the returned pointer designates.  In the `<=` branch the original
window `q.take k` is returned; otherwise `std::reverse_copy` writes the
plain byte-wise reversal of the window into the scratch buffer and that
buffer is returned. -/
def normalize_kmer (q : List Nat) (k : Nat) : List Nat :=
  let c := nkScan q k 0 (k / 2)
  if q.getD c 0 ≤ q.getD (k - c) 0 then q.take k
  else (q.take k).reverse

/-- The bytes `normalize_kmer` writes into the caller-supplied scratch
buffer: nothing in the branch returning the original window, the
reversed window (exactly `k` bytes) in the other branch. -/
def normalize_kmer_buffer (q : List Nat) (k : Nat) : Option (List Nat) :=
  let c := nkScan q k 0 (k / 2)
  if q.getD c 0 ≤ q.getD (k - c) 0 then none
  else some ((q.take k).reverse)

/-! ### print_kmers (src/src/cobs.cpp lines 606-629) -/

/-- Modelled from the spec: `cobs::canonicalize_kmer`, called by
`print_kmers`, is not part of the repository snapshot (only its caller
is); the specification describes canonicalization as the lexicographic
minimum of the window and its reverse complement. -/
def canonicalize_kmer (w : List Nat) : List Nat :=
  spec_canonical w

/-- Embedding of the `print_kmers` subtool loop (src/src/cobs.cpp lines
606-629): `for (size_t i = 0; i < query.size() - kmer_size; i++)` prints
`canonicalize_kmer` of the window starting at `i`.  Note the loop bound
`query.size() - kmer_size`, so `i` ranges over `[0, |Q| - k)`. -/
def print_kmers (q : List Nat) (k : Nat) : List (List Nat) :=
  (List.range (q.length - k)).map (fun i => canonicalize_kmer ((q.drop i).take k))

/-! ### Index construction and query model

The classic/compact builders and `ClassicSearch` are declared in headers
under src/ but their implementations are not part of the snapshot (only
their tests and callers are), so the bit matrix and the score are
modelled from the specification. -/

/-- Modelled from the spec: the Bloom-filter column of one document.
`classic_construct` is not in the snapshot; per the specification, for
each k-mer `t` the document's source emits, the `h` bits at indices
`hash i t % m` are set, so bit `r` is set iff some emitted k-mer hashes
to `r` under one of the `h` hash functions. -/
def bloomBit (hash : Nat → List Nat → Nat) (h m : Nat)
    (doc : List (List Nat)) (r : Nat) : Bool :=
  doc.any (fun t => (List.range h).any (fun i => hash i t % m = r))

/-- Modelled from the spec: bit `d` of row `r` of the bit-sliced index
body equals bit `r` of document `d`'s Bloom-filter column. -/
def indexBit (hash : Nat → List Nat → Nat) (h m : Nat)
    (docs : List (List (List Nat))) (d r : Nat) : Bool :=
  bloomBit hash h m (docs.getD d []) r

/-- Modelled from the spec: a k-mer passes the h-wise AND test for
document `d` iff all `h` rows indexed by `hash i t % m` have bit `d`
set. -/
def kmerMatch (hash : Nat → List Nat → Nat) (h m : Nat)
    (docs : List (List (List Nat))) (d : Nat) (t : List Nat) : Bool :=
  (List.range h).all (fun i => indexBit hash h m docs d (hash i t % m))

/-- Modelled from the spec: the score `ClassicSearch` returns for
document `d` is the number of the query's k-mers that pass the h-wise
AND test against `d`'s column. -/
def score (hash : Nat → List Nat → Nat) (h m : Nat)
    (docs : List (List (List Nat))) (d : Nat) (kmers : List (List Nat)) : Nat :=
  (kmers.filter (kmerMatch hash h m docs d)).length

/-- Modelled from the spec: k-mer extraction of the query engine
produces the `|Q| - k + 1` windows of length `k` in order of their
starting position. -/
def kmersOf (q : List Nat) (k : Nat) : List (List Nat) :=
  (List.range (q.length + 1 - k)).map (fun i => (q.drop i).take k)

/-! ### Bloom sizer (cobs::calc_signature_size) -/

/-- Modelled from the spec: `cobs::calc_signature_size` is not in the
snapshot (only its caller `print_parameters` is); the specification
gives `signature_size(n, h, p) = ceil(-n*h / ln(1 - p^(1/h)))`, clamped
to at least 1. -/
noncomputable def calc_signature_size (n h : Nat) (p : ℝ) : ℤ :=
  max 1 ⌈(-((n : ℝ) * (h : ℝ))) / Real.log (1 - p ^ ((1 : ℝ) / (h : ℝ)))⌉

/-! ### CLI output-directory check (src/src/cobs.cpp, classic_construct
lines 220-231 and compact_construct lines 362-372) -/

/-- The action a construct subcommand takes on its output directory. -/
inductive ConstructAction where
  | die_overwrite
  | erase_then_construct
  | continue_existing
  | construct_fresh
deriving DecidableEq

/-- Embedding of the output-directory check of `classic_construct`
(src/src/cobs.cpp lines 220-231): if the directory exists, clobber
erases it first, otherwise continue falls through, otherwise the build
dies with "Output directory exists, will not overwrite without
--clobber". -/
def classic_construct_output_check (ex clobber cont : Bool) : ConstructAction :=
  if ex then
    if clobber then ConstructAction.erase_then_construct
    else if cont then ConstructAction.continue_existing
    else ConstructAction.die_overwrite
  else ConstructAction.construct_fresh

/-- Embedding of the identical output-directory check of
`compact_construct` (src/src/cobs.cpp lines 362-372). -/
def compact_construct_output_check (ex clobber cont : Bool) : ConstructAction :=
  if ex then
    if clobber then ConstructAction.erase_then_construct
    else if cont then ConstructAction.continue_existing
    else ConstructAction.die_overwrite
  else ConstructAction.construct_fresh

/-! ### query subcommand and main dispatch (src/src/cobs.cpp lines
408-452 and 1098-1124) -/

/-- Classification of the header of the file handed to the query
subcommand. -/
inductive HeaderKind where
  | classic
  | compact
  | neither
deriving DecidableEq

/-- Embedding of the `query` subcommand body (src/src/cobs.cpp lines
427-449).  The search itself is external to the snapshot, so the
(score, name) result list is a parameter; the function yields the
stdout lines on success, and the `die` diagnostic as a thrown error
when the file has neither a classic nor a compact header. -/
def query_run (hk : HeaderKind) (in_file : String)
    (result : List (Nat × String)) (timer_line : String) :
    Except String (List String) :=
  match hk with
  | HeaderKind.classic =>
    Except.ok ((result.map (fun r => r.2 ++ " - " ++ toString r.1)) ++ [timer_line])
  | HeaderKind.compact =>
    Except.ok ((result.map (fun r => r.2 ++ " - " ++ toString r.1)) ++ [timer_line])
  | HeaderKind.neither =>
    Except.error ("Could not open index path \"" ++ in_file ++ "\"")

/-- Embedding of the exception handler of `main` (src/src/cobs.cpp
lines 1111-1117): a thrown error becomes the single stderr line
"EXCEPTION: ..." and exit code -1; a normal return keeps the subtool's
stdout lines and exit code 0.  Result: (stdout lines, stderr lines,
exit code). -/
def main_wrap (r : Except String (List String)) :
    List String × List String × Int :=
  match r with
  | Except.ok out => (out, [], 0)
  | Except.error e => ([], ["EXCEPTION: " ++ e], -1)

/-! ### Classic index reader base (src/cobs/query/classic_index/base.hpp) -/

/-- The header fields a classic index reader holds
(src/cobs/file/classic_index_header.hpp, via base.hpp). -/
structure ClassicIndexHeader where
  term_size : Nat
  canonicalize : Nat
  num_hashes : Nat
  signature_size : Nat
  row_size : Nat
  file_names : List String

/-- Embedding of `classic_index::base::term_size` (base.hpp line 22). -/
def classic_base_term_size (hdr : ClassicIndexHeader) : Nat :=
  hdr.term_size

/-- Embedding of `classic_index::base::row_size` (base.hpp line 25). -/
def classic_base_row_size (hdr : ClassicIndexHeader) : Nat :=
  hdr.row_size

/-- Embedding of `classic_index::base::page_size` (base.hpp line 26):
`uint64_t page_size() const override { return 1; }` — the header is
ignored. -/
def classic_base_page_size (_hdr : ClassicIndexHeader) : Nat :=
  1

/-! ### Helper lemmas about the normalize_kmer scan loop -/

/-- The scan counter never decreases. -/
lemma nkScan_ge (q : List Nat) (k : Nat) :
    ∀ (fuel c : Nat), c ≤ nkScan q k c fuel := by
  intro fuel
  induction fuel with
  | zero => intro c; exact le_refl c
  | succ n ih =>
    intro c
    simp only [nkScan]
    split
    · exact le_trans (Nat.le_succ c) (ih (c + 1))
    · exact le_refl c

/-- The scan counter advances at most `fuel` steps. -/
lemma nkScan_le (q : List Nat) (k : Nat) :
    ∀ (fuel c : Nat), nkScan q k c fuel ≤ c + fuel := by
  intro fuel
  induction fuel with
  | zero => intro c; simp [nkScan]
  | succ n ih =>
    intro c
    simp only [nkScan]
    split
    · exact le_trans (ih (c + 1)) (by omega)
    · omega

/-- Every position the scan moved past satisfied the loop's equality
test. -/
lemma nkScan_prefix (q : List Nat) (k : Nat) :
    ∀ (fuel c j : Nat), c ≤ j → j < nkScan q k c fuel →
      q.getD j 0 = q.getD (k - j) 0 := by
  intro fuel
  induction fuel with
  | zero =>
    intro c j hcj hj
    simp only [nkScan] at hj
    omega
  | succ n ih =>
    intro c j hcj hj
    simp only [nkScan] at hj
    by_cases heq : q.getD c 0 = q.getD (k - c) 0
    · rw [if_pos heq] at hj
      rcases Nat.eq_or_lt_of_le hcj with h | h
      · rw [← h]; exact heq
      · exact ih (c + 1) j h hj
    · rw [if_neg heq] at hj
      omega

/-- If the scan stopped before exhausting its fuel, it stopped at a
mismatch. -/
lemma nkScan_stop (q : List Nat) (k : Nat) :
    ∀ (fuel c : Nat), nkScan q k c fuel < c + fuel →
      q.getD (nkScan q k c fuel) 0 ≠ q.getD (k - nkScan q k c fuel) 0 := by
  intro fuel
  induction fuel with
  | zero =>
    intro c h
    simp only [nkScan] at h
    omega
  | succ n ih =>
    intro c h
    simp only [nkScan] at h ⊢
    by_cases heq : q.getD c 0 = q.getD (k - c) 0
    · rw [if_pos heq] at h ⊢
      exact ih (c + 1) (by omega)
    · rw [if_neg heq] at h ⊢
      exact heq

/-- The scan reads only offsets `0..k`: byte sequences agreeing there
scan identically. -/
lemma nkScan_congr (q qq : List Nat) (k : Nat)
    (hag : ∀ i, i ≤ k → q.getD i 0 = qq.getD i 0) :
    ∀ (fuel c : Nat), c + fuel ≤ k / 2 → nkScan q k c fuel = nkScan qq k c fuel := by
  intro fuel
  induction fuel with
  | zero => intro c _; simp [nkScan]
  | succ n ih =>
    intro c hc
    have hck : c ≤ k := le_trans (by omega) (Nat.div_le_self k 2)
    have hkc : k - c ≤ k := Nat.sub_le k c
    simp only [nkScan]
    rw [hag c hck, hag (k - c) hkc]
    split
    · exact ih (c + 1) (by omega)
    · rfl

/-- Two lists agreeing (via `getD`) on the first `k` positions, both of
length at least `k`, have equal `take k` prefixes. -/
lemma take_eq_of_getD_eq :
    ∀ (k : Nat) (q qq : List Nat), k ≤ q.length → k ≤ qq.length →
      (∀ i, i < k → q.getD i 0 = qq.getD i 0) → q.take k = qq.take k := by
  intro k
  induction k with
  | zero => intro q qq _ _ _; simp
  | succ n ih =>
    intro q qq hq hqq hag
    cases q with
    | nil => simp at hq
    | cons a as =>
      cases qq with
      | nil => simp at hqq
      | cons b bs =>
        have h0 : a = b := by
          have := hag 0 (Nat.succ_pos n)
          simpa using this
        have ht : as.take n = bs.take n := by
          apply ih as bs (by simpa using hq) (by simpa using hqq)
          intro i hi
          have := hag (i + 1) (by omega)
          simpa using this
        simp [h0, ht]

/-! ### Claim C2 -/

/-- Claim C2 counterexample: `normalize_kmer` does not return the
lexicographic minimum of the window and its reverse complement.  For
the 1-byte window "T" (followed by the byte "A"), the code returns "T"
while the specification's canonical form of "T" is "A". -/
theorem normalize_kmer_not_revcomp_min :
    normalize_kmer [84, 65] 1 = [84] ∧
    spec_canonical (List.take 1 [84, 65]) = [65] ∧
    normalize_kmer [84, 65] 1 ≠ spec_canonical (List.take 1 [84, 65]) := by
  decide

/-- Claim C2 (amended): for every window of length `k ≥ 1` whose
successor byte is also readable, `normalize_kmer` advances two pointers
until the first index `c < k / 2` at which the byte at offset `c`
differs from the byte at offset `k - c` (the mirror offset is `k - c`,
so the byte one past the window takes part); it returns the original
window when the byte at the stopping index is at most its mirror byte,
and otherwise writes the plain byte-wise reversal (no complementation)
of the window into the caller-supplied buffer and returns that buffer.
In particular the result is always the window itself or its reversal. -/
theorem normalize_kmer_first_mismatch (q : List Nat) (k : Nat)
    (hk : 1 ≤ k) (hq : k + 1 ≤ q.length) :
    ∃ c, c ≤ k / 2 ∧
      (∀ j, j < c → q.getD j 0 = q.getD (k - j) 0) ∧
      (c < k / 2 → q.getD c 0 ≠ q.getD (k - c) 0) ∧
      normalize_kmer q k =
        (if q.getD c 0 ≤ q.getD (k - c) 0 then q.take k else (q.take k).reverse) ∧
      normalize_kmer_buffer q k =
        (if q.getD c 0 ≤ q.getD (k - c) 0 then none else some ((q.take k).reverse)) ∧
      (normalize_kmer q k = q.take k ∨ normalize_kmer q k = (q.take k).reverse) := by
  refine ⟨nkScan q k 0 (k / 2), ?_, ?_, ?_, rfl, rfl, ?_⟩
  · have := nkScan_le q k (k / 2) 0
    omega
  · intro j hj
    exact nkScan_prefix q k (k / 2) 0 j (Nat.zero_le j) hj
  · intro hlt
    have := nkScan_stop q k (k / 2) 0 (by omega)
    exact this
  · have hnk : normalize_kmer q k =
        if q.getD (nkScan q k 0 (k / 2)) 0 ≤ q.getD (k - nkScan q k 0 (k / 2)) 0
        then q.take k else (q.take k).reverse := rfl
    by_cases hle :
      q.getD (nkScan q k 0 (k / 2)) 0 ≤ q.getD (k - nkScan q k 0 (k / 2)) 0
    · left
      rw [hnk, if_pos hle]
    · right
      rw [hnk, if_neg hle]

/-- Witness for the amended claim C2, at the window "T" with successor
byte "A". -/
theorem normalize_kmer_first_mismatch_witness :
    1 ≤ 1 ∧ 1 + 1 ≤ List.length [84, 65] ∧
    ∃ c, c ≤ 1 / 2 ∧
      (∀ j, j < c → List.getD [84, 65] j 0 = List.getD [84, 65] (1 - j) 0) ∧
      (c < 1 / 2 → List.getD [84, 65] c 0 ≠ List.getD [84, 65] (1 - c) 0) ∧
      normalize_kmer [84, 65] 1 =
        (if List.getD [84, 65] c 0 ≤ List.getD [84, 65] (1 - c) 0 then
          List.take 1 [84, 65] else (List.take 1 [84, 65]).reverse) ∧
      normalize_kmer_buffer [84, 65] 1 =
        (if List.getD [84, 65] c 0 ≤ List.getD [84, 65] (1 - c) 0 then none
          else some ((List.take 1 [84, 65]).reverse)) ∧
      (normalize_kmer [84, 65] 1 = List.take 1 [84, 65] ∨
        normalize_kmer [84, 65] 1 = (List.take 1 [84, 65]).reverse) :=
  ⟨le_refl 1, by decide,
    normalize_kmer_first_mismatch [84, 65] 1 (le_refl 1) (by decide)⟩

/-! ### Claim C10 -/

/-- Claim C10: `normalize_kmer` reads only bytes at offsets `0..k` from
the query pointer (byte sequences readable to offset `k` and agreeing
there give equal results); the only write is into the caller-supplied
buffer, which either stays untouched (the branch returning the original
window) or receives exactly `k` bytes that are then returned; and the
byte at offset `k` — one past the window, reached because the initial
mirror pointer is `query + k` — is genuinely read: two 2-byte windows
agreeing at offsets `0..k-1` but differing at offset `k` produce
different results. -/
theorem normalize_kmer_memory_safety (k : Nat) (q qq : List Nat)
    (hk : 1 ≤ k) (hq : k + 1 ≤ q.length) (hqq : k + 1 ≤ qq.length)
    (hag : ∀ i, i ≤ k → q.getD i 0 = qq.getD i 0) :
    normalize_kmer q k = normalize_kmer qq k ∧
    ((normalize_kmer_buffer q k = none ∧ normalize_kmer q k = q.take k) ∨
      (∃ b, normalize_kmer_buffer q k = some b ∧ b.length = k ∧
        normalize_kmer q k = b)) ∧
    (∃ r rr : List Nat, r.length = 3 ∧ rr.length = 3 ∧
      (∀ i, i < 2 → r.getD i 0 = rr.getD i 0) ∧
      normalize_kmer r 2 ≠ normalize_kmer rr 2) := by
  have hsc : nkScan q k 0 (k / 2) = nkScan qq k 0 (k / 2) :=
    nkScan_congr q qq k hag (k / 2) 0 (by omega)
  have hc2 : nkScan q k 0 (k / 2) ≤ k / 2 := by
    have := nkScan_le q k (k / 2) 0
    omega
  have hck : nkScan q k 0 (k / 2) ≤ k :=
    le_trans hc2 (Nat.div_le_self k 2)
  have htake : q.take k = qq.take k := by
    apply take_eq_of_getD_eq k q qq (by omega) (by omega)
    intro i hi
    exact hag i (by omega)
  refine ⟨?_, ?_, ?_⟩
  · simp only [normalize_kmer]
    rw [hsc, hag (nkScan qq k 0 (k / 2)) (by omega),
      hag (k - nkScan qq k 0 (k / 2)) (Nat.sub_le k _), htake]
  · have hnk : normalize_kmer q k =
        if q.getD (nkScan q k 0 (k / 2)) 0 ≤ q.getD (k - nkScan q k 0 (k / 2)) 0
        then q.take k else (q.take k).reverse := rfl
    have hnb : normalize_kmer_buffer q k =
        if q.getD (nkScan q k 0 (k / 2)) 0 ≤ q.getD (k - nkScan q k 0 (k / 2)) 0
        then none else some ((q.take k).reverse) := rfl
    by_cases hle :
      q.getD (nkScan q k 0 (k / 2)) 0 ≤ q.getD (k - nkScan q k 0 (k / 2)) 0
    · left
      constructor
      · rw [hnb, if_pos hle]
      · rw [hnk, if_pos hle]
    · right
      refine ⟨(q.take k).reverse, ?_, ?_, ?_⟩
      · rw [hnb, if_neg hle]
      · simp [List.length_take]
        omega
      · rw [hnk, if_neg hle]
  · exact ⟨[65, 67, 65], [65, 67, 32], rfl, rfl, by decide, by decide⟩

/-- Witness for claim C10, at `k = 2` on the byte sequence "ACG". -/
theorem normalize_kmer_memory_safety_witness :
    1 ≤ 2 ∧ 2 + 1 ≤ List.length [65, 67, 71] ∧
    normalize_kmer [65, 67, 71] 2 = normalize_kmer [65, 67, 71] 2 ∧
    ((normalize_kmer_buffer [65, 67, 71] 2 = none ∧
        normalize_kmer [65, 67, 71] 2 = List.take 2 [65, 67, 71]) ∨
      (∃ b, normalize_kmer_buffer [65, 67, 71] 2 = some b ∧ b.length = 2 ∧
        normalize_kmer [65, 67, 71] 2 = b)) :=
  ⟨by decide, by decide,
    (normalize_kmer_memory_safety 2 [65, 67, 71] [65, 67, 71] (by decide)
      (by decide) (by decide) (fun i _ => rfl)).1,
    (normalize_kmer_memory_safety 2 [65, 67, 71] [65, 67, 71] (by decide)
      (by decide) (by decide) (fun i _ => rfl)).2.1⟩

/-! ### Claim C1 -/

/-- Claim C1: no false negatives.  For every document `d` and every
k-mer `t` that `d`'s source emits during construction, all `h` rows at
indices `hash i t % m` have bit `d` set, and a query consisting of `t`
alone scores at least 1 for `d`. -/
theorem no_false_negative_single_kmer (hash : Nat → List Nat → Nat)
    (h m : Nat) (docs : List (List (List Nat))) (d : Nat) (t : List Nat)
    (ht : t ∈ docs.getD d []) :
    (∀ i, i < h → indexBit hash h m docs d (hash i t % m) = true) ∧
    1 ≤ score hash h m docs d [t] := by
  have h1 : ∀ i, i < h → indexBit hash h m docs d (hash i t % m) = true := by
    intro i hi
    simp only [indexBit, bloomBit, List.any_eq_true]
    exact ⟨t, ht, ⟨i, List.mem_range.mpr hi, by simp⟩⟩
  have hmatch : kmerMatch hash h m docs d t = true := by
    simp only [kmerMatch, List.all_eq_true]
    intro i hi
    exact h1 i (List.mem_range.mp hi)
  refine ⟨h1, ?_⟩
  simp [score, List.filter_cons, hmatch]

/-- Witness for claim C1: two hash functions, `m = 5`, one document
holding the single k-mer "A". -/
theorem no_false_negative_single_kmer_witness :
    ([65] ∈ List.getD [[[65]]] 0 ([] : List (List Nat))) ∧
    indexBit (fun i w => i + w.length) 2 5 [[[65]]] 0
      ((fun (i : Nat) (w : List Nat) => i + w.length) 0 [65] % 5) = true ∧
    1 ≤ score (fun i w => i + w.length) 2 5 [[[65]]] 0 [[65]] :=
  ⟨by decide,
    (no_false_negative_single_kmer (fun i w => i + w.length) 2 5 [[[65]]] 0 [65]
      (by decide)).1 0 (by decide),
    (no_false_negative_single_kmer (fun i w => i + w.length) 2 5 [[[65]]] 0 [65]
      (by decide)).2⟩

/-! ### Claim C7 -/

/-- Claim C7: every score equals the number of the query's k-mers that
pass the h-wise AND test for that document; it is at most
`|Q| - k + 1`; whenever `|Q| - k + 1` fits the uint16 counter the score
incurs no wraparound; and a single-k-mer query scores only 0 or 1. -/
theorem score_counts_and_bounds (hash : Nat → List Nat → Nat)
    (h m : Nat) (docs : List (List (List Nat))) (d : Nat)
    (q : List Nat) (k : Nat) (hk : 1 ≤ k) (hq : k ≤ q.length) :
    score hash h m docs d (kmersOf q k) =
      ((kmersOf q k).filter (kmerMatch hash h m docs d)).length ∧
    (kmersOf q k).length = q.length - k + 1 ∧
    score hash h m docs d (kmersOf q k) ≤ q.length - k + 1 ∧
    (q.length - k + 1 < 65536 →
      score hash h m docs d (kmersOf q k) % 65536 =
        score hash h m docs d (kmersOf q k)) ∧
    (∀ t : List Nat, score hash h m docs d [t] = 0 ∨
      score hash h m docs d [t] = 1) := by
  have hlen : (kmersOf q k).length = q.length - k + 1 := by
    simp only [kmersOf, List.length_map, List.length_range]
    omega
  have hle : score hash h m docs d (kmersOf q k) ≤ q.length - k + 1 := by
    rw [← hlen]
    exact List.length_filter_le _ _
  refine ⟨rfl, hlen, hle, ?_, ?_⟩
  · intro hfit
    exact Nat.mod_eq_of_lt (lt_of_le_of_lt hle hfit)
  · intro t
    by_cases hmatch : kmerMatch hash h m docs d t = true
    · right
      simp [score, List.filter_cons, hmatch]
    · left
      simp [score, List.filter_cons, hmatch]

/-- Witness for claim C7 on the 4-byte query "ACGT" with `k = 2`. -/
theorem score_counts_and_bounds_witness :
    1 ≤ 2 ∧ 2 ≤ List.length [65, 67, 71, 84] ∧
    (kmersOf [65, 67, 71, 84] 2).length = List.length [65, 67, 71, 84] - 2 + 1 ∧
    score (fun i w => i + w.length) 1 3 [[[65, 67]]] 0 (kmersOf [65, 67, 71, 84] 2) ≤
      List.length [65, 67, 71, 84] - 2 + 1 :=
  ⟨by decide, by decide,
    (score_counts_and_bounds (fun i w => i + w.length) 1 3 [[[65, 67]]] 0
      [65, 67, 71, 84] 2 (by decide) (by decide)).2.1,
    (score_counts_and_bounds (fun i w => i + w.length) 1 3 [[[65, 67]]] 0
      [65, 67, 71, 84] 2 (by decide) (by decide)).2.2.1⟩

/-! ### Claim C3 -/

/-- Claim C3 evaluated at the spec's own scenario: the `print_kmers`
loop runs `i` over `[0, |Q| - k)`, so for the string "ACGTACGTACG" with
`k = 4` it emits only 7 windows (canonicalized, so the window "TACG"
prints as "CGTA"), not the 8 raw windows the claim lists. -/
theorem print_kmers_off_by_one :
    print_kmers [65, 67, 71, 84, 65, 67, 71, 84, 65, 67, 71] 4 =
      [[65, 67, 71, 84], [67, 71, 84, 65], [71, 84, 65, 67], [67, 71, 84, 65],
        [65, 67, 71, 84], [67, 71, 84, 65], [71, 84, 65, 67]] ∧
    (print_kmers [65, 67, 71, 84, 65, 67, 71, 84, 65, 67, 71] 4).length = 7 ∧
    List.length [65, 67, 71, 84, 65, 67, 71, 84, 65, 67, 71] - 4 + 1 = 8 := by
  decide

/-! ### Claim C4 -/

/-- Claim C4 counterexample: the basepair table maps the byte "N" (78)
to 0, not to itself, refuting "maps every other byte value to
itself". -/
theorem basepair_map_not_identity :
    basepair_map 78 = 0 ∧ basepair_map 78 ≠ 78 := by
  decide

/-- Claim C4 (amended): the mapping sends A to T, T to A, C to G, G to
C, and every other byte value to 0 (the `memset` fill), not to
itself. -/
theorem basepair_map_amended (c : Nat)
    (h1 : c ≠ 65) (h2 : c ≠ 67) (h3 : c ≠ 71) (h4 : c ≠ 84) :
    basepair_map 65 = 84 ∧ basepair_map 84 = 65 ∧
    basepair_map 67 = 71 ∧ basepair_map 71 = 67 ∧
    basepair_map c = 0 := by
  refine ⟨rfl, rfl, rfl, rfl, ?_⟩
  simp [basepair_map, h1, h2, h3, h4]

/-- Witness for the amended claim C4 at the byte "N" (78). -/
theorem basepair_map_amended_witness :
    (78 : Nat) ≠ 65 ∧ basepair_map 78 = 0 :=
  ⟨by decide,
    (basepair_map_amended 78 (by decide) (by decide) (by decide) (by decide)).2.2.2.2⟩

/-! ### Claim C5 -/

/-- Claim C5: for both `classic_construct` and `compact_construct`, an
existing output directory without the clobber or continue flag makes
the build die (never overwriting silently), and with the clobber flag
the existing directory is erased before construction begins. -/
theorem construct_output_dir_check (ex cl co : Bool) :
    (ex = true → cl = false → co = false →
      classic_construct_output_check ex cl co = ConstructAction.die_overwrite ∧
      compact_construct_output_check ex cl co = ConstructAction.die_overwrite) ∧
    (ex = true → cl = true →
      classic_construct_output_check ex cl co = ConstructAction.erase_then_construct ∧
      compact_construct_output_check ex cl co = ConstructAction.erase_then_construct) := by
  constructor
  · rintro rfl rfl rfl
    exact ⟨rfl, rfl⟩
  · rintro rfl rfl
    exact ⟨rfl, rfl⟩

/-- Witness for claim C5 at the two relevant flag settings. -/
theorem construct_output_dir_check_witness :
    classic_construct_output_check true false false = ConstructAction.die_overwrite ∧
    compact_construct_output_check true false false = ConstructAction.die_overwrite ∧
    classic_construct_output_check true true false = ConstructAction.erase_then_construct :=
  ⟨((construct_output_dir_check true false false).1 rfl rfl rfl).1,
    ((construct_output_dir_check true false false).1 rfl rfl rfl).2,
    ((construct_output_dir_check true true false).2 rfl rfl).1⟩

/-! ### Claim C9 -/

/-- Claim C9: a classic index reader exposes `page_size = 1` regardless
of the header contents of the opened index. -/
theorem classic_page_size_always_one :
    ∀ hdr : ClassicIndexHeader, classic_base_page_size hdr = 1 :=
  fun _ => rfl

/-! ### Claim C8 -/

/-- Claim C8: in the modelled query subcommand, a file whose header is
neither classic nor compact aborts with a single stderr diagnostic, a
nonzero exit code, and no score output; and every modelled run either
succeeds with exit code 0 and empty stderr or fails with empty stdout,
exactly one stderr line and a nonzero exit code. -/
theorem query_error_single_diagnostic (in_file timer : String)
    (res : List (Nat × String)) :
    ((main_wrap (query_run HeaderKind.neither in_file res timer)).1 = [] ∧
      (main_wrap (query_run HeaderKind.neither in_file res timer)).2.1.length = 1 ∧
      (main_wrap (query_run HeaderKind.neither in_file res timer)).2.2 ≠ 0) ∧
    (∀ hk : HeaderKind,
      ((main_wrap (query_run hk in_file res timer)).2.2 = 0 ∧
        (main_wrap (query_run hk in_file res timer)).2.1 = []) ∨
      ((main_wrap (query_run hk in_file res timer)).1 = [] ∧
        (main_wrap (query_run hk in_file res timer)).2.1.length = 1 ∧
        (main_wrap (query_run hk in_file res timer)).2.2 ≠ 0)) := by
  constructor
  · refine ⟨rfl, rfl, ?_⟩
    show (-1 : Int) ≠ 0
    decide
  · intro hk
    cases hk
    · exact Or.inl ⟨rfl, rfl⟩
    · exact Or.inl ⟨rfl, rfl⟩
    · refine Or.inr ⟨rfl, rfl, ?_⟩
      show (-1 : Int) ≠ 0
      decide

/-! ### Claim C6 -/

/-- Claim C6: `signature_size(n, h, p)` equals the ceiling of
`-n * h / ln(1 - p^(1/h))` clamped to at least 1, and for fixed
`h ≥ 1` and `0 < p < 1` it is monotone (non-decreasing) in `n`. -/
theorem calc_signature_size_formula_monotone (n nn h : Nat) (p : ℝ)
    (hh : 1 ≤ h) (hp0 : 0 < p) (hp1 : p < 1) (hle : n ≤ nn) :
    calc_signature_size n h p =
      max 1 ⌈(-((n : ℝ) * (h : ℝ))) / Real.log (1 - p ^ ((1 : ℝ) / (h : ℝ)))⌉ ∧
    1 ≤ calc_signature_size n h p ∧
    calc_signature_size n h p ≤ calc_signature_size nn h p := by
  have hh1 : (1 : ℝ) ≤ (h : ℝ) := by exact_mod_cast hh
  have hhR : (0 : ℝ) < (h : ℝ) := lt_of_lt_of_le zero_lt_one hh1
  have hx0 : (0 : ℝ) < p ^ ((1 : ℝ) / (h : ℝ)) := Real.rpow_pos_of_pos hp0 _
  have hx1 : p ^ ((1 : ℝ) / (h : ℝ)) < 1 :=
    Real.rpow_lt_one hp0.le hp1 (div_pos zero_lt_one hhR)
  have hL : Real.log (1 - p ^ ((1 : ℝ) / (h : ℝ))) < 0 :=
    Real.log_neg (by linarith) (by linarith)
  refine ⟨rfl, le_max_left _ _, ?_⟩
  unfold calc_signature_size
  apply max_le_max (le_refl (1 : ℤ))
  apply Int.ceil_le_ceil
  have hnum : ((n : ℝ) * (h : ℝ)) ≤ ((nn : ℝ) * (h : ℝ)) := by
    apply mul_le_mul_of_nonneg_right _ (le_of_lt hhR)
    exact_mod_cast hle
  have e1 : (-((n : ℝ) * (h : ℝ))) / Real.log (1 - p ^ ((1 : ℝ) / (h : ℝ))) =
      ((n : ℝ) * (h : ℝ)) / (-(Real.log (1 - p ^ ((1 : ℝ) / (h : ℝ))))) := by
    rw [div_neg, neg_div]
  have e2 : (-((nn : ℝ) * (h : ℝ))) / Real.log (1 - p ^ ((1 : ℝ) / (h : ℝ))) =
      ((nn : ℝ) * (h : ℝ)) / (-(Real.log (1 - p ^ ((1 : ℝ) / (h : ℝ))))) := by
    rw [div_neg, neg_div]
  rw [e1, e2]
  exact (div_le_div_iff_of_pos_right (by linarith)).mpr hnum

/-- Witness for claim C6 at `n = 3 ≤ 5`, `h = 1`, `p = 1/2`. -/
theorem calc_signature_size_formula_monotone_witness :
    1 ≤ 1 ∧ (0 : ℝ) < 1 / 2 ∧ (1 / 2 : ℝ) < 1 ∧ 3 ≤ 5 ∧
    1 ≤ calc_signature_size 3 1 (1 / 2) ∧
    calc_signature_size 3 1 (1 / 2) ≤ calc_signature_size 5 1 (1 / 2) :=
  ⟨le_refl 1, by norm_num, by norm_num, by norm_num,
    (calc_signature_size_formula_monotone 3 5 1 (1 / 2) (le_refl 1)
      (by norm_num) (by norm_num) (by norm_num)).2.1,
    (calc_signature_size_formula_monotone 3 5 1 (1 / 2) (le_refl 1)
      (by norm_num) (by norm_num) (by norm_num)).2.2⟩
